import Mathlib

/-!
Verification of the `Diamond3D` mesh-transform engine from `src/3d_diamond.py`.

The Python class keeps a numpy array `vertices_original` of the six canonical
octahedron vertices, a working copy `vertices`, and a fixed list `faces` of
eight index triples.  Each transform method rebuilds `self.vertices` from the
current one (`scale`, `translate`, the three rotations via
`self.vertices @ R.T`, and the three reflections), and `reset` copies
`vertices_original` back into `vertices`.

We embed the floating-point coordinates as real numbers.  A numpy row vector
`v` multiplied as `v @ R.T` equals the matrix-vector product `R · v`, so each
method is modelled as mapping `matVec R` over the vertex list.
-/

namespace Diamond

/-- A 3D point: one row of the numpy vertex array. -/
@[ext]
structure Vec3 where
  x : ℝ
  y : ℝ
  z : ℝ

/-- A 3×3 matrix given by its rows, as built with `np.array([[...],[...],[...]])`. -/
structure Mat3 where
  r0 : Vec3
  r1 : Vec3
  r2 : Vec3

/-- Dot product of two rows. -/
noncomputable def dot (a b : Vec3) : ℝ :=
  a.x * b.x + a.y * b.y + a.z * b.z

/-- Matrix-vector product `m · v`; the embedding of one row of `V @ m.T`. -/
noncomputable def matVec (m : Mat3) (v : Vec3) : Vec3 :=
  ⟨dot m.r0 v, dot m.r1 v, dot m.r2 v⟩

/-- The six canonical vertices from `Diamond3D.__init__`:
top, right, front, left, back, bottom. -/
noncomputable def originalVerts : List Vec3 :=
  [⟨0, 0, 1⟩, ⟨1, 0, 0⟩, ⟨0, 1, 0⟩, ⟨-1, 0, 0⟩, ⟨0, -1, 0⟩, ⟨0, 0, -1⟩]

/-- The eight triangular faces from `Diamond3D.__init__`. -/
def diamondFaces : List (List ℕ) :=
  [[0, 1, 2], [0, 2, 3], [0, 3, 4], [0, 4, 1],
   [5, 2, 1], [5, 3, 2], [5, 4, 3], [5, 1, 4]]

/-- The mutable state of a `Diamond3D` object. -/
structure Diamond3D where
  vertices_original : List Vec3
  vertices : List Vec3
  faces : List (List ℕ)

/-- `Diamond3D.__init__`: canonical vertices, a deep copy as the working set,
and the fixed face list. -/
noncomputable def Diamond3D.init : Diamond3D :=
  { vertices_original := originalVerts
    vertices := originalVerts
    faces := diamondFaces }

/-- `reset`: `self.vertices = copy.deepcopy(self.vertices_original)`. -/
def Diamond3D.reset (d : Diamond3D) : Diamond3D :=
  { d with vertices := d.vertices_original }

/-- `scale`: `self.vertices = self.vertices * factor` (elementwise). -/
noncomputable def Diamond3D.scale (d : Diamond3D) (factor : ℝ) : Diamond3D :=
  { d with vertices := d.vertices.map fun v => ⟨v.x * factor, v.y * factor, v.z * factor⟩ }

/-- `translate`: `self.vertices = self.vertices + np.array([tx, ty, tz])`
(numpy broadcasts the row across all vertices). -/
noncomputable def Diamond3D.translate (d : Diamond3D) (tx ty tz : ℝ) : Diamond3D :=
  { d with vertices := d.vertices.map fun v => ⟨v.x + tx, v.y + ty, v.z + tz⟩ }

/-- `np.radians`: degrees to radians. -/
noncomputable def radians (deg : ℝ) : ℝ :=
  deg * Real.pi / 180

/-- The rotation matrix built in `rotate_x`. -/
noncomputable def rotXmat (a : ℝ) : Mat3 :=
  ⟨⟨1, 0, 0⟩,
   ⟨0, Real.cos a, -Real.sin a⟩,
   ⟨0, Real.sin a, Real.cos a⟩⟩

/-- The rotation matrix built in `rotate_y`. -/
noncomputable def rotYmat (a : ℝ) : Mat3 :=
  ⟨⟨Real.cos a, 0, Real.sin a⟩,
   ⟨0, 1, 0⟩,
   ⟨-Real.sin a, 0, Real.cos a⟩⟩

/-- The rotation matrix built in `rotate_z`. -/
noncomputable def rotZmat (a : ℝ) : Mat3 :=
  ⟨⟨Real.cos a, -Real.sin a, 0⟩,
   ⟨Real.sin a, Real.cos a, 0⟩,
   ⟨0, 0, 1⟩⟩

/-- The reflection matrix built in `reflect_x`. -/
noncomputable def reflXmat : Mat3 :=
  ⟨⟨-1, 0, 0⟩, ⟨0, 1, 0⟩, ⟨0, 0, 1⟩⟩

/-- The reflection matrix built in `reflect_y`. -/
noncomputable def reflYmat : Mat3 :=
  ⟨⟨1, 0, 0⟩, ⟨0, -1, 0⟩, ⟨0, 0, 1⟩⟩

/-- The reflection matrix built in `reflect_z`. -/
noncomputable def reflZmat : Mat3 :=
  ⟨⟨1, 0, 0⟩, ⟨0, 1, 0⟩, ⟨0, 0, -1⟩⟩

/-- `rotate_x`: `self.vertices = self.vertices @ rotation_matrix.T`. -/
noncomputable def Diamond3D.rotate_x (d : Diamond3D) (angle_degrees : ℝ) : Diamond3D :=
  { d with vertices := d.vertices.map (matVec (rotXmat (radians angle_degrees))) }

/-- `rotate_y`: `self.vertices = self.vertices @ rotation_matrix.T`. -/
noncomputable def Diamond3D.rotate_y (d : Diamond3D) (angle_degrees : ℝ) : Diamond3D :=
  { d with vertices := d.vertices.map (matVec (rotYmat (radians angle_degrees))) }

/-- `rotate_z`: `self.vertices = self.vertices @ rotation_matrix.T`. -/
noncomputable def Diamond3D.rotate_z (d : Diamond3D) (angle_degrees : ℝ) : Diamond3D :=
  { d with vertices := d.vertices.map (matVec (rotZmat (radians angle_degrees))) }

/-- `reflect_x`: `self.vertices = self.vertices @ reflection_matrix.T`. -/
noncomputable def Diamond3D.reflect_x (d : Diamond3D) : Diamond3D :=
  { d with vertices := d.vertices.map (matVec reflXmat) }

/-- `reflect_y`: `self.vertices = self.vertices @ reflection_matrix.T`. -/
noncomputable def Diamond3D.reflect_y (d : Diamond3D) : Diamond3D :=
  { d with vertices := d.vertices.map (matVec reflYmat) }

/-- `reflect_z`: `self.vertices = self.vertices @ reflection_matrix.T`. -/
noncomputable def Diamond3D.reflect_z (d : Diamond3D) : Diamond3D :=
  { d with vertices := d.vertices.map (matVec reflZmat) }

/-- The eight transform methods of `Diamond3D` (reset excluded). -/
inductive Transform
  | scale (factor : ℝ)
  | translate (tx ty tz : ℝ)
  | rotateX (deg : ℝ)
  | rotateY (deg : ℝ)
  | rotateZ (deg : ℝ)
  | reflectX
  | reflectY
  | reflectZ

/-- Dispatch one transform to the corresponding method. -/
noncomputable def applyTransform : Transform → Diamond3D → Diamond3D
  | .scale f, d => d.scale f
  | .translate tx ty tz, d => d.translate tx ty tz
  | .rotateX a, d => d.rotate_x a
  | .rotateY a, d => d.rotate_y a
  | .rotateZ a, d => d.rotate_z a
  | .reflectX, d => d.reflect_x
  | .reflectY, d => d.reflect_y
  | .reflectZ, d => d.reflect_z

/-- Apply a user-issued sequence of transforms, left to right. -/
noncomputable def applyTransforms (ts : List Transform) (d : Diamond3D) : Diamond3D :=
  ts.foldl (fun s t => applyTransform t s) d

/-- A user action: one of the eight transforms, or the reset button. -/
inductive Op
  | transform (t : Transform)
  | reset

/-- Dispatch one user action. -/
noncomputable def applyOp : Op → Diamond3D → Diamond3D
  | .transform t, d => applyTransform t d
  | .reset, d => d.reset

/-- Apply a user-issued sequence of actions, left to right. -/
noncomputable def applyOps (ops : List Op) (d : Diamond3D) : Diamond3D :=
  ops.foldl (fun s o => applyOp o s) d

/-! ## Helper lemmas -/

lemma applyTransforms_cons (t : Transform) (ts : List Transform) (d : Diamond3D) :
    applyTransforms (t :: ts) d = applyTransforms ts (applyTransform t d) := rfl

lemma applyOps_cons (o : Op) (ops : List Op) (d : Diamond3D) :
    applyOps (o :: ops) d = applyOps ops (applyOp o d) := rfl

lemma applyTransform_vertices_original (t : Transform) (d : Diamond3D) :
    (applyTransform t d).vertices_original = d.vertices_original := by
  cases t <;> rfl

lemma applyTransform_faces (t : Transform) (d : Diamond3D) :
    (applyTransform t d).faces = d.faces := by
  cases t <;> rfl

lemma applyOp_vertices_original (o : Op) (d : Diamond3D) :
    (applyOp o d).vertices_original = d.vertices_original := by
  cases o with
  | transform t => exact applyTransform_vertices_original t d
  | reset => rfl

lemma applyOp_faces (o : Op) (d : Diamond3D) :
    (applyOp o d).faces = d.faces := by
  cases o with
  | transform t => exact applyTransform_faces t d
  | reset => rfl

lemma applyTransforms_vertices_original (ts : List Transform) (d : Diamond3D) :
    (applyTransforms ts d).vertices_original = d.vertices_original := by
  induction ts generalizing d with
  | nil => rfl
  | cons t ts ih =>
    rw [applyTransforms_cons, ih, applyTransform_vertices_original]

lemma applyOps_vertices_original (ops : List Op) (d : Diamond3D) :
    (applyOps ops d).vertices_original = d.vertices_original := by
  induction ops generalizing d with
  | nil => rfl
  | cons o ops ih =>
    rw [applyOps_cons, ih, applyOp_vertices_original]

lemma applyOps_faces (ops : List Op) (d : Diamond3D) :
    (applyOps ops d).faces = d.faces := by
  induction ops generalizing d with
  | nil => rfl
  | cons o ops ih =>
    rw [applyOps_cons, ih, applyOp_faces]

/-- Every transform method rewrites the working vertices by mapping a fixed
pointwise function; the function depends only on the transform parameters. -/
lemma applyTransform_vertices_eq_map (t : Transform) :
    ∃ f : Vec3 → Vec3, ∀ d : Diamond3D, (applyTransform t d).vertices = d.vertices.map f := by
  cases t <;> exact ⟨_, fun d => rfl⟩

lemma map_fixed {f : Vec3 → Vec3} (h : ∀ v, f v = v) (l : List Vec3) : l.map f = l := by
  induction l with
  | nil => rfl
  | cons a l ih => rw [List.map_cons, h a, ih]

lemma matVec_reflX (v : Vec3) : matVec reflXmat v = ⟨-v.x, v.y, v.z⟩ := by
  ext <;> simp [matVec, dot, reflXmat]

lemma matVec_reflY (v : Vec3) : matVec reflYmat v = ⟨v.x, -v.y, v.z⟩ := by
  ext <;> simp [matVec, dot, reflYmat]

lemma matVec_reflZ (v : Vec3) : matVec reflZmat v = ⟨v.x, v.y, -v.z⟩ := by
  ext <;> simp [matVec, dot, reflZmat]

lemma matVec_rotX (a : ℝ) (v : Vec3) :
    matVec (rotXmat a) v =
      ⟨v.x, Real.cos a * v.y - Real.sin a * v.z, Real.sin a * v.y + Real.cos a * v.z⟩ := by
  ext <;> simp [matVec, dot, rotXmat]
  ring

lemma matVec_rotY (a : ℝ) (v : Vec3) :
    matVec (rotYmat a) v =
      ⟨Real.cos a * v.x + Real.sin a * v.z, v.y, -(Real.sin a * v.x) + Real.cos a * v.z⟩ := by
  ext <;> simp [matVec, dot, rotYmat]

lemma matVec_rotZ (a : ℝ) (v : Vec3) :
    matVec (rotZmat a) v =
      ⟨Real.cos a * v.x - Real.sin a * v.y, Real.sin a * v.x + Real.cos a * v.y, v.z⟩ := by
  ext <;> simp [matVec, dot, rotZmat]
  ring

/-! ## Claim theorems -/

/-- C1: after any sequence of transforms applied to the freshly constructed
mesh, `reset` restores the working vertex list to exactly the six canonical
original coordinates fixed at construction, and `reset` is idempotent; being a
total function, it has no error conditions. -/
theorem reset_restores_original_after_any_transforms (ts : List Transform) :
    ((applyTransforms ts Diamond3D.init).reset).vertices = originalVerts ∧
    ((applyTransforms ts Diamond3D.init).reset).vertices =
      Diamond3D.init.vertices_original ∧
    ((applyTransforms ts Diamond3D.init).reset).reset =
      (applyTransforms ts Diamond3D.init).reset := by
  refine ⟨?_, ?_, rfl⟩ <;>
    simp [Diamond3D.reset, applyTransforms_vertices_original, Diamond3D.init]

/-- C2: after any sequence of transforms and resets, the face list is exactly
the eight index triples fixed at construction, and every index is at most 5. -/
theorem faces_invariant_under_all_ops (ops : List Op) :
    (applyOps ops Diamond3D.init).faces = Diamond3D.init.faces ∧
    (applyOps ops Diamond3D.init).faces =
      [[0, 1, 2], [0, 2, 3], [0, 3, 4], [0, 4, 1],
       [5, 2, 1], [5, 3, 2], [5, 4, 3], [5, 1, 4]] ∧
    ∀ f ∈ (applyOps ops Diamond3D.init).faces, ∀ i ∈ f, i ≤ 5 := by
  have h : (applyOps ops Diamond3D.init).faces = diamondFaces := by
    rw [applyOps_faces]; rfl
  refine ⟨by rw [h]; rfl, by rw [h]; rfl, ?_⟩
  rw [h]
  decide

/-- C3: each axis reflection negates exactly one coordinate of every vertex and
is its own inverse: applying it twice restores the vertex list exactly, for
every mesh state. -/
theorem reflections_negate_one_axis_and_are_involutive (d : Diamond3D) :
    d.reflect_x.vertices = d.vertices.map (fun v => ⟨-v.x, v.y, v.z⟩) ∧
    d.reflect_y.vertices = d.vertices.map (fun v => ⟨v.x, -v.y, v.z⟩) ∧
    d.reflect_z.vertices = d.vertices.map (fun v => ⟨v.x, v.y, -v.z⟩) ∧
    d.reflect_x.reflect_x.vertices = d.vertices ∧
    d.reflect_y.reflect_y.vertices = d.vertices ∧
    d.reflect_z.reflect_z.vertices = d.vertices := by
  refine ⟨?_, ?_, ?_, ?_, ?_, ?_⟩
  · simp only [Diamond3D.reflect_x]
    exact List.map_congr_left fun v _ => matVec_reflX v
  · simp only [Diamond3D.reflect_y]
    exact List.map_congr_left fun v _ => matVec_reflY v
  · simp only [Diamond3D.reflect_z]
    exact List.map_congr_left fun v _ => matVec_reflZ v
  · simp only [Diamond3D.reflect_x, List.map_map]
    exact map_fixed (fun v => by rw [Function.comp_apply, matVec_reflX, matVec_reflX]; ext <;> simp) _
  · simp only [Diamond3D.reflect_y, List.map_map]
    exact map_fixed (fun v => by rw [Function.comp_apply, matVec_reflY, matVec_reflY]; ext <;> simp) _
  · simp only [Diamond3D.reflect_z, List.map_map]
    exact map_fixed (fun v => by rw [Function.comp_apply, matVec_reflZ, matVec_reflZ]; ext <;> simp) _

/-- C4: the three rotations convert degrees to radians and apply the standard
right-hand-rule rotation matrix about the named axis to every vertex
(`V · Rᵀ`, i.e. `R · v` per row); in particular rotating the mesh by
`rotate_z 90` sends vertex 1 = (1,0,0) exactly to (0,1,0). -/
theorem rotations_apply_standard_matrices (d : Diamond3D) (θ : ℝ) :
    (d.rotate_x θ).vertices = d.vertices.map (fun v =>
      ⟨v.x,
       Real.cos (radians θ) * v.y - Real.sin (radians θ) * v.z,
       Real.sin (radians θ) * v.y + Real.cos (radians θ) * v.z⟩) ∧
    (d.rotate_y θ).vertices = d.vertices.map (fun v =>
      ⟨Real.cos (radians θ) * v.x + Real.sin (radians θ) * v.z,
       v.y,
       -(Real.sin (radians θ) * v.x) + Real.cos (radians θ) * v.z⟩) ∧
    (d.rotate_z θ).vertices = d.vertices.map (fun v =>
      ⟨Real.cos (radians θ) * v.x - Real.sin (radians θ) * v.y,
       Real.sin (radians θ) * v.x + Real.cos (radians θ) * v.y,
       v.z⟩) ∧
    (Diamond3D.init.rotate_z 90).vertices[1]? = some ⟨0, 1, 0⟩ := by
  have h90 : radians 90 = Real.pi / 2 := by unfold radians; ring
  refine ⟨?_, ?_, ?_, ?_⟩
  · simp only [Diamond3D.rotate_x]
    exact List.map_congr_left fun v _ => matVec_rotX (radians θ) v
  · simp only [Diamond3D.rotate_y]
    exact List.map_congr_left fun v _ => matVec_rotY (radians θ) v
  · simp only [Diamond3D.rotate_z]
    exact List.map_congr_left fun v _ => matVec_rotZ (radians θ) v
  · simp only [Diamond3D.rotate_z, Diamond3D.init, originalVerts, List.map_cons,
      List.getElem?_cons_succ, List.getElem?_cons_zero]
    rw [matVec_rotZ, h90]
    simp [Real.cos_pi_div_two, Real.sin_pi_div_two]

/-- C5: for every real angle θ (no clamping: θ may lie outside [-360, 360]),
rotating about Z by θ and then by 360 - θ returns every vertex exactly to its
previous position. -/
theorem rotateZ_then_complement_restores (d : Diamond3D) (θ : ℝ) :
    ((d.rotate_z θ).rotate_z (360 - θ)).vertices = d.vertices := by
  have hab : radians θ + radians (360 - θ) = 2 * Real.pi := by
    unfold radians; ring
  have h1 : Real.cos (radians θ) * Real.cos (radians (360 - θ)) -
      Real.sin (radians θ) * Real.sin (radians (360 - θ)) = 1 := by
    rw [← Real.cos_add, hab, Real.cos_two_pi]
  have h2 : Real.sin (radians θ) * Real.cos (radians (360 - θ)) +
      Real.cos (radians θ) * Real.sin (radians (360 - θ)) = 0 := by
    rw [← Real.sin_add, hab, Real.sin_two_pi]
  simp only [Diamond3D.rotate_z, List.map_map]
  refine map_fixed (fun v => ?_) _
  rw [Function.comp_apply, matVec_rotZ, matVec_rotZ]
  ext
  · show Real.cos (radians (360 - θ)) * (Real.cos (radians θ) * v.x - Real.sin (radians θ) * v.y) -
      Real.sin (radians (360 - θ)) * (Real.sin (radians θ) * v.x + Real.cos (radians θ) * v.y) = v.x
    linear_combination v.x * h1 - v.y * h2
  · show Real.sin (radians (360 - θ)) * (Real.cos (radians θ) * v.x - Real.sin (radians θ) * v.y) +
      Real.cos (radians (360 - θ)) * (Real.sin (radians θ) * v.x + Real.cos (radians θ) * v.y) = v.y
    linear_combination v.x * h2 + v.y * h1
  · rfl

/-- C6: `scale` multiplies every vertex component-wise by the factor, for any
real factor (negative and zero factors included, with no error), and two scales
compose into one scale by the product of the factors, here exactly. -/
theorem scale_componentwise_and_composes (d : Diamond3D) (f f1 f2 : ℝ) :
    (d.scale f).vertices = d.vertices.map (fun v => ⟨v.x * f, v.y * f, v.z * f⟩) ∧
    ((d.scale f1).scale f2).vertices = (d.scale (f1 * f2)).vertices := by
  refine ⟨rfl, ?_⟩
  simp only [Diamond3D.scale, List.map_map]
  exact List.map_congr_left fun v _ => by
    rw [Function.comp_apply]; ext <;> simp <;> ring

/-- C7: `translate` adds the offset (tx, ty, tz) to every vertex, and the
transforms chain on the current state: from vertex 0 = (0,0,1), `scale 2`
yields (0,0,2) and a further `translate 1 1 1` yields (1,1,3). -/
theorem translate_adds_offset_and_chains (d : Diamond3D) (tx ty tz : ℝ) :
    (d.translate tx ty tz).vertices =
      d.vertices.map (fun v => ⟨v.x + tx, v.y + ty, v.z + tz⟩) ∧
    (Diamond3D.init.scale 2).vertices[0]? = some ⟨0, 0, 2⟩ ∧
    ((Diamond3D.init.scale 2).translate 1 1 1).vertices[0]? = some ⟨1, 1, 3⟩ := by
  refine ⟨rfl, ?_, ?_⟩ <;>
    norm_num [Diamond3D.scale, Diamond3D.translate, Diamond3D.init, originalVerts]

/-- C8: no transform method ever modifies the original vertex buffer: one step
leaves `vertices_original` of any state untouched, and after any sequence of
transforms from construction it is still exactly the six canonical
octahedron coordinates. -/
theorem transforms_never_modify_original (t : Transform) (d : Diamond3D)
    (ts : List Transform) :
    (applyTransform t d).vertices_original = d.vertices_original ∧
    (applyTransforms ts Diamond3D.init).vertices_original = originalVerts :=
  ⟨applyTransform_vertices_original t d,
   by rw [applyTransforms_vertices_original]; rfl⟩

/-- C9: every transform is a total, deterministic function of the input vertex
sequence and its parameters: equal input vertex sequences give equal outputs,
and the output has the same length as the input. -/
theorem transforms_deterministic_and_length_preserving (t : Transform)
    (d1 d2 : Diamond3D) (h : d1.vertices = d2.vertices) :
    (applyTransform t d1).vertices = (applyTransform t d2).vertices ∧
    (applyTransform t d1).vertices.length = d1.vertices.length := by
  obtain ⟨f, hf⟩ := applyTransform_vertices_eq_map t
  constructor
  · rw [hf d1, hf d2, h]
  · rw [hf d1, List.length_map]

/-- Witness for C9 at the reflect-X transform on the freshly built mesh. -/
theorem transforms_deterministic_and_length_preserving_witness :
    Diamond3D.init.vertices = Diamond3D.init.vertices ∧
    ((applyTransform Transform.reflectX Diamond3D.init).vertices =
        (applyTransform Transform.reflectX Diamond3D.init).vertices ∧
      (applyTransform Transform.reflectX Diamond3D.init).vertices.length =
        Diamond3D.init.vertices.length) :=
  ⟨rfl, transforms_deterministic_and_length_preserving Transform.reflectX
    Diamond3D.init Diamond3D.init rfl⟩

/-- C10: the identity parameters act as identities: `scale 1` and
`translate 0 0 0` leave every vertex exactly unchanged, on any state. -/
theorem identity_scale_and_translate (d : Diamond3D) :
    (d.scale 1).vertices = d.vertices ∧
    (d.translate 0 0 0).vertices = d.vertices := by
  constructor
  · simp only [Diamond3D.scale]
    exact map_fixed (fun v => by ext <;> simp) _
  · simp only [Diamond3D.translate]
    exact map_fixed (fun v => by ext <;> simp) _

end Diamond
